import Mathlib

/-!
# httperrors: the error responder and the error list

A shallow embedding of `errors.go` (package `httperrors`) together with the parts of the
Go standard library it calls: `http.ResponseWriter`, `http.Error`,
`httptest.ResponseRecorder`, `json.Marshal` on the `ErrorJSON` struct, `json.Unmarshal`
on flat objects, `unicode/utf8` and `fmt.Sprintf("%v", ...)` on a slice of errors.

Go strings and byte slices are sequences of bytes; a byte is a natural number below 256.
-/

namespace httperrors

/-! ## Bytes and Go strings -/

/-- A Go `string` or `[]byte`: a finite sequence of bytes (numbers below 256). -/
abbrev Bytes := List Nat

/-! ## unicode/utf8 -/

/-- The constant `utf8.RuneError` (U+FFFD). -/
def RuneError : Nat := 0xFFFD

/-- A continuation byte, in the range 0x80..0xBF. -/
def isCont (b : Nat) : Bool := decide (0x80 ≤ b) && decide (b ≤ 0xBF)

/-- Lowest second byte accepted after the lead byte `b0` (the accept ranges of
`unicode/utf8`: E0 needs A0.., F0 needs 90.., every other lead 80..). -/
def acceptLo (b0 : Nat) : Nat :=
  if b0 = 0xE0 then 0xA0 else if b0 = 0xF0 then 0x90 else 0x80

/-- Highest second byte accepted after the lead byte `b0` (ED stops at 9F, F4 at 8F). -/
def acceptHi (b0 : Nat) : Nat :=
  if b0 = 0xED then 0x9F else if b0 = 0xF4 then 0x8F else 0xBF

/-- The function `utf8.DecodeRune`: the first rune of `p` and its width in bytes;
`(RuneError, 0)` on empty input and `(RuneError, 1)` on an ill-formed sequence.
Masks are written as remainders and shifts as products. -/
def DecodeRune : Bytes → Nat × Nat
  | [] => (RuneError, 0)
  | b0 :: rest =>
    if b0 < 0x80 then (b0, 1)
    else if 0xC2 ≤ b0 ∧ b0 ≤ 0xDF then
      match rest with
      | b1 :: _ =>
        if isCont b1 then ((b0 % 32) * 64 + b1 % 64, 2) else (RuneError, 1)
      | [] => (RuneError, 1)
    else if 0xE0 ≤ b0 ∧ b0 ≤ 0xEF then
      match rest with
      | b1 :: b2 :: _ =>
        if acceptLo b0 ≤ b1 ∧ b1 ≤ acceptHi b0 ∧ isCont b2 then
          ((b0 % 16) * 4096 + (b1 % 64) * 64 + b2 % 64, 3)
        else (RuneError, 1)
      | _ => (RuneError, 1)
    else if 0xF0 ≤ b0 ∧ b0 ≤ 0xF4 then
      match rest with
      | b1 :: b2 :: b3 :: _ =>
        if acceptLo b0 ≤ b1 ∧ b1 ≤ acceptHi b0 ∧ isCont b2 ∧ isCont b3 then
          ((b0 % 8) * 262144 + (b1 % 64) * 4096 + (b2 % 64) * 64 + b3 % 64, 4)
        else (RuneError, 1)
      | _ => (RuneError, 1)
    else (RuneError, 1)

/-- The function `utf8.AppendRune` on an empty slice: the UTF-8 encoding of rune `r`;
surrogates and values above U+10FFFF encode as U+FFFD. -/
def AppendRune (r : Nat) : Bytes :=
  if r ≤ 0x7F then [r]
  else if r ≤ 0x7FF then [0xC0 + r / 64, 0x80 + r % 64]
  else if 0x10FFFF < r ∨ (0xD800 ≤ r ∧ r ≤ 0xDFFF) then [0xEF, 0xBF, 0xBD]
  else if r ≤ 0xFFFF then [0xE0 + r / 4096, 0x80 + (r / 64) % 64, 0x80 + r % 64]
  else [0xF0 + r / 262144, 0x80 + (r / 4096) % 64, 0x80 + (r / 64) % 64, 0x80 + r % 64]

/-- The bytes of the Go string holding the text `cs`: its UTF-8 encoding. -/
def encodeRunes (cs : List Char) : Bytes := cs.flatMap (fun c => AppendRune c.toNat)

/-- The bytes of a Go string literal. -/
def goStr (s : String) : Bytes := encodeRunes s.toList

/-! ## The status table

The twelve phrase constants and the map literal of `errors.go`. -/

def invalidInput : Bytes := goStr "Bad Request"
def unauthorized : Bytes := goStr "Unauthorized"
def forbidden : Bytes := goStr "Forbidden"
def notFound : Bytes := goStr "Not Found"
def methodNotAllowed : Bytes := goStr "Method Not Allowed"
def entityTooLarge : Bytes := goStr "Entity Too Large"
def unprocessableEntity : Bytes := goStr "Unprocessable Entity"
def failedDependency : Bytes := goStr "Failed Dependency"
def tooManyRequests : Bytes := goStr "Too Many Requests"
def internal : Bytes := goStr "Internal Server Error"
def badGateway : Bytes := goStr "Bad Gateway"
def serviceUnavailable : Bytes := goStr "Service Unavailable"

/-- The map literal `errorCodeMap`, keyed by the `net/http` status constants
(`http.StatusBadRequest` = 400, ..., `http.StatusServiceUnavailable` = 503). -/
def errorCodeMap : List (Int × Bytes) :=
  [ (400, invalidInput),
    (401, unauthorized),
    (403, forbidden),
    (404, notFound),
    (405, methodNotAllowed),
    (413, entityTooLarge),
    (422, unprocessableEntity),
    (424, failedDependency),
    (429, tooManyRequests),
    (500, internal),
    (502, badGateway),
    (503, serviceUnavailable) ]

/-- The two-valued map index `v, ok := m[k]`. -/
def mapIndex (m : List (Int × Bytes)) (k : Int) : Option Bytes := m.lookup k

/-- The Go interface type `error`: `none` is the nil interface, `some d` an error whose
`Error()` method returns `d`. -/
abbrev error := Option Bytes

/-- The struct `ErrorJSON`, the response format of `WriteError`. -/
structure ErrorJSON where
  Code : Int
  Message : Bytes
  Reason : Bytes
deriving DecidableEq

/-! ## encoding/json: Marshal on ErrorJSON -/

/-- The table `htmlSafeSet` of `encoding/json`: the ASCII bytes written to a JSON string
unchanged when HTML escaping is on (all of 0x20..0x7F but the double quote, the ampersand,
the angle brackets and the backslash). -/
def htmlSafeSet (b : Nat) : Bool :=
  decide (0x20 ≤ b) && decide (b < 0x80) &&
    !(b == 34 || b == 38 || b == 60 || b == 62 || b == 92)

/-- The lookup `hex[d]` in the constant `"0123456789abcdef"`. -/
def hex (d : Nat) : Nat := if d < 10 then 48 + d else 87 + d

/-- The escape `appendString` writes for an ASCII byte outside `htmlSafeSet`. -/
def escapeByte (b : Nat) : Bytes :=
  if b = 92 ∨ b = 34 then [92, b]
  else if b = 8 then [92, 98]
  else if b = 12 then [92, 102]
  else if b = 10 then [92, 110]
  else if b = 13 then [92, 114]
  else if b = 9 then [92, 116]
  else [92, 117, 48, 48, hex (b / 16), hex (b % 16)]

/-- The loop of `appendString` with `escapeHTML` set, from position `i` on (`src` is the
remaining input `src[i:]`); the first argument bounds the number of iterations. -/
def appendStringLoop : Nat → Bytes → Bytes
  | 0, _ => []
  | _ + 1, [] => []
  | fuel + 1, b :: rest =>
    if b < 0x80 then
      if htmlSafeSet b then b :: appendStringLoop fuel rest
      else escapeByte b ++ appendStringLoop fuel rest
    else
      let d := DecodeRune (b :: rest)
      if d.1 = RuneError ∧ d.2 = 1 then
        [92, 117, 102, 102, 102, 100] ++ appendStringLoop fuel rest
      else if d.1 = 0x2028 ∨ d.1 = 0x2029 then
        [92, 117, 50, 48, 50, hex (d.1 % 16)] ++ appendStringLoop fuel ((b :: rest).drop d.2)
      else
        (b :: rest).take d.2 ++ appendStringLoop fuel ((b :: rest).drop d.2)

/-- The function `appendString(dst, src, true)` on an empty `dst`: `src` as a quoted JSON
string. Every iteration consumes at least one byte, so `src.length` iterations suffice. -/
def appendString (src : Bytes) : Bytes :=
  34 :: appendStringLoop src.length src ++ [34]

/-- The function `strconv.AppendInt(nil, v, 10)`. -/
def appendInt : Int → Bytes
  | Int.ofNat n => (Nat.toDigits 10 n).map Char.toNat
  | Int.negSucc n => 45 :: (Nat.toDigits 10 (n + 1)).map Char.toNat

/-- The function `json.Marshal` applied to an `ErrorJSON` value: the fields in declaration
order under their tag names, no white space; it never fails on this struct. -/
def Marshal (v : ErrorJSON) : Bytes × error :=
  ([123] ++ goStr "\"code\":" ++ appendInt v.Code ++
    goStr ",\"message\":" ++ appendString v.Message ++
    goStr ",\"reason\":" ++ appendString v.Reason ++ [125], none)

/-! ## net/http: ResponseWriter and Error -/

/-- The interface `http.ResponseWriter` over a sink state `σ`: `HeaderSet w k v` is
`w.Header().Set(k, v)`, `HeaderDel w k` is `w.Header().Del(k)`. The results of `Write`
are not represented: every caller below discards them. -/
structure ResponseWriter (σ : Type) where
  HeaderSet : σ → String → String → σ
  HeaderDel : σ → String → σ
  WriteHeader : σ → Int → σ
  Write : σ → Bytes → σ

/-- The function `http.Error(w, error, code)` (as of Go 1.23, which added the removal of
`Content-Length`): plain-text headers, the status line, then one write of the message
followed by a newline (`fmt.Fprintln`). It does not end the request. -/
def httpError {σ : Type} (rw : ResponseWriter σ) (w : σ) (err : Bytes) (code : Int) : σ :=
  let w := rw.HeaderDel w "Content-Length"
  let w := rw.HeaderSet w "Content-Type" "text/plain; charset=utf-8"
  let w := rw.HeaderSet w "X-Content-Type-Options" "nosniff"
  let w := rw.WriteHeader w code
  rw.Write w (err ++ [10])

/-! ## WriteError -/

/-- How a call ended: it returned, or it panicked with a message; either way with the
sink in state `w`. -/
inductive Outcome (σ : Type) where
  | returned (w : σ)
  | panicked (msg : String) (w : σ)

/-- The sink as the call left it. -/
def Outcome.sink {σ : Type} : Outcome σ → σ
  | .returned w => w
  | .panicked _ w => w

/-- Whether the call panicked. -/
def Outcome.isPanicked {σ : Type} : Outcome σ → Bool
  | .returned _ => false
  | .panicked _ _ => true

/-- The function `WriteError(w, errorCode, reason)`; the package variable `marshalJSON`
is the second argument. A failed serialization calls `http.Error` and then falls through
to the three statements of the success path. -/
def WriteError {σ : Type} (rw : ResponseWriter σ) (marshalJSON : ErrorJSON → Bytes × error)
    (w : σ) (errorCode : Int) (reason : Bytes) : Outcome σ :=
  match mapIndex errorCodeMap errorCode with
  | none => Outcome.panicked "Invalid error code." w
  | some _ =>
    let errorResponse : ErrorJSON :=
      { Code := errorCode,
        Message := (mapIndex errorCodeMap errorCode).getD [],
        Reason := reason }
    let r := marshalJSON errorResponse
    let w := if r.2 ≠ none then httpError rw w reason errorCode else w
    let w := rw.HeaderSet w "Content-Type" "application/json; charset=UTF-8"
    let w := rw.WriteHeader w errorCode
    Outcome.returned (rw.Write w r.1)

/-! ## Two sinks: a call log and httptest.ResponseRecorder -/

/-- One method call on a `ResponseWriter`. -/
inductive SinkOp where
  | headerSet (key value : String)
  | headerDel (key : String)
  | writeHeader (code : Int)
  | write (data : Bytes)
deriving DecidableEq

/-- The sink that only logs the calls made on it, oldest first. -/
def logSink : ResponseWriter (List SinkOp) where
  HeaderSet := fun w k v => w ++ [SinkOp.headerSet k v]
  HeaderDel := fun w k => w ++ [SinkOp.headerDel k]
  WriteHeader := fun w c => w ++ [SinkOp.writeHeader c]
  Write := fun w d => w ++ [SinkOp.write d]

/-- Whether a call is `WriteHeader`. -/
def SinkOp.isWriteHeader : SinkOp → Bool
  | .writeHeader _ => true
  | _ => false

/-- Whether a call is `Write`. -/
def SinkOp.isWrite : SinkOp → Bool
  | .write _ => true
  | _ => false

/-- The type `http.Header`: a key is absent or has a list of values. Keys are taken in
canonical form (`Content-Type`, `Content-Length`, `X-Content-Type-Options` are). -/
abbrev Header := String → Option (List String)

/-- The method `Header.Set`. -/
def Header.Set (h : Header) (key value : String) : Header :=
  fun k => if k = key then some [value] else h k

/-- The method `Header.Del`. -/
def Header.Del (h : Header) (key : String) : Header :=
  fun k => if k = key then none else h k

/-- The method `Header.Get`: the first value of the key, or the empty string. -/
def Header.Get (h : Header) (key : String) : String :=
  match h key with
  | some (v :: _) => v
  | _ => ""

/-- The struct `httptest.ResponseRecorder`; `snapHeader` is the copy of the header map
taken when the status line is written (what `Result()` reports, what a server would put
on the wire). -/
structure ResponseRecorder where
  Code : Int
  HeaderMap : Header
  Body : Bytes
  wroteHeader : Bool
  snapHeader : Option Header

/-- The function `httptest.NewRecorder()`. -/
def NewRecorder : ResponseRecorder :=
  { Code := 200, HeaderMap := fun _ => none, Body := [], wroteHeader := false,
    snapHeader := none }

/-- The range check of `ResponseRecorder.WriteHeader` (it panics outside 100..999). -/
def checkWriteHeaderCode (code : Int) : Bool := decide (100 ≤ code) && decide (code ≤ 999)

/-- The method `ResponseRecorder.WriteHeader`: only the first call has an effect. The
panic of `checkWriteHeaderCode` is left out; `WriteError` passes table codes only, and
these pass the check (`errorCodeMap_checkWriteHeaderCode`). -/
def ResponseRecorder.WriteHeader (rw : ResponseRecorder) (code : Int) : ResponseRecorder :=
  if rw.wroteHeader then rw
  else { rw with Code := code, wroteHeader := true, snapHeader := some rw.HeaderMap }

/-- The method `ResponseRecorder.Write`: writes an implicit 200 status line first when
none was written (sniffing a content type with `http.DetectContentType`, here
`detect`, when neither `Content-Type` nor `Transfer-Encoding` is set), then appends to
the body. -/
def ResponseRecorder.Write (detect : Bytes → String) (rw : ResponseRecorder) (buf : Bytes) :
    ResponseRecorder :=
  let rw :=
    if rw.wroteHeader then rw
    else
      let hasType := (rw.HeaderMap "Content-Type").isSome
      let hasTE := decide (Header.Get rw.HeaderMap "Transfer-Encoding" ≠ "")
      let rw :=
        if !hasType && !hasTE then
          { rw with HeaderMap := Header.Set rw.HeaderMap "Content-Type" (detect buf) }
        else rw
      rw.WriteHeader 200
  { rw with Body := rw.Body ++ buf }

/-- The recorder as a `ResponseWriter`. -/
def recorderSink (detect : Bytes → String) : ResponseWriter ResponseRecorder where
  HeaderSet := fun w k v => { w with HeaderMap := Header.Set w.HeaderMap k v }
  HeaderDel := fun w k => { w with HeaderMap := Header.Del w.HeaderMap k }
  WriteHeader := fun w c => w.WriteHeader c
  Write := fun w d => w.Write detect d

/-! ## encoding/json: Unmarshal, on flat objects

What `json.Unmarshal` into an empty interface yields for an object whose members are
strings, integer literals, `true`, `false` or `null`. Input outside this fragment (nested
values, fractions, exponents) is answered `none`; on the fragment the result is the
decoded object, members in input order. -/

/-- A decoded member value. Go decodes a number to `float64`; an integer literal is
represented by its value. -/
inductive JSONValue where
  | null
  | bool (b : Bool)
  | number (n : Int)
  | string (s : Bytes)
deriving DecidableEq

/-- The scanner's `isSpace`. -/
def isSpace (c : Nat) : Bool := c == 32 || c == 9 || c == 13 || c == 10

/-- Skips insignificant white space. -/
def skipSpace : Bytes → Bytes
  | [] => []
  | c :: rest => if isSpace c then skipSpace rest else c :: rest

/-- The value of a hexadecimal digit, as in `getu4`. -/
def hexValue (c : Nat) : Option Nat :=
  if 48 ≤ c ∧ c ≤ 57 then some (c - 48)
  else if 97 ≤ c ∧ c ≤ 102 then some (c - 97 + 10)
  else if 65 ≤ c ∧ c ≤ 70 then some (c - 65 + 10)
  else none

/-- The function `getu4`: the rune of a leading `\uXXXX` escape, `none` for Go's -1. -/
def getu4 : Bytes → Option Nat
  | s0 :: s1 :: a :: b :: c :: d :: _ =>
    if s0 = 92 ∧ s1 = 117 then
      match hexValue a, hexValue b, hexValue c, hexValue d with
      | some x, some y, some z, some t => some (((x * 16 + y) * 16 + z) * 16 + t)
      | _, _, _, _ => none
    else none
  | _ => none

/-- The function `utf16.DecodeRune`, with `none` for a second operand of -1. -/
def utf16DecodeRune (r1 : Nat) (r2 : Option Nat) : Nat :=
  match r2 with
  | some r2 =>
    if 0xD800 ≤ r1 ∧ r1 < 0xDC00 ∧ 0xDC00 ≤ r2 ∧ r2 < 0xE000 then
      (r1 - 0xD800) * 1024 + (r2 - 0xDC00) + 0x10000
    else RuneError
  | none => RuneError

/-- The byte a one-letter escape stands for. -/
def simpleEscape (e : Nat) : Option Nat :=
  if e = 34 ∨ e = 92 ∨ e = 47 then some e
  else if e = 98 then some 8
  else if e = 102 then some 12
  else if e = 110 then some 10
  else if e = 114 then some 13
  else if e = 116 then some 9
  else none

/-- Puts decoded bytes in front of the rest of a decoded string. -/
def consDecoded (bs : Bytes) (r : Option (Bytes × Bytes)) : Option (Bytes × Bytes) :=
  r.map (fun p => (bs ++ p.1, p.2))

/-- The string scanner with `unquoteBytes`, from just after the opening quote: the decoded
string and the input after the closing quote. Control characters and unknown escapes are
errors; ill-formed UTF-8 is coerced to U+FFFD. The first argument bounds the iterations. -/
def unquoteLoop : Nat → Bytes → Option (Bytes × Bytes)
  | 0, _ => none
  | _ + 1, [] => none
  | fuel + 1, c :: rest =>
    if c = 34 then some ([], rest)
    else if c = 92 then
      match rest with
      | [] => none
      | e :: rest1 =>
        if e = 117 then
          match getu4 (c :: rest) with
          | none => none
          | some rr =>
            let after := rest1.drop 4
            if 0xD800 ≤ rr ∧ rr < 0xE000 then
              let dec := utf16DecodeRune rr (getu4 after)
              if dec ≠ RuneError then
                consDecoded (AppendRune dec) (unquoteLoop fuel (after.drop 6))
              else consDecoded (AppendRune RuneError) (unquoteLoop fuel after)
            else consDecoded (AppendRune rr) (unquoteLoop fuel after)
        else
          match simpleEscape e with
          | some b => consDecoded [b] (unquoteLoop fuel rest1)
          | none => none
    else if c < 32 then none
    else if c < 0x80 then consDecoded [c] (unquoteLoop fuel rest)
    else
      let d := DecodeRune (c :: rest)
      consDecoded (AppendRune d.1) (unquoteLoop fuel ((c :: rest).drop d.2))

/-- A decimal digit. -/
def isDigit (c : Nat) : Bool := decide (48 ≤ c) && decide (c ≤ 57)

/-- The leading digits of the input and what follows them. -/
def spanDigits : Bytes → Bytes × Bytes
  | [] => ([], [])
  | c :: rest =>
    if isDigit c then ((spanDigits rest).1.cons c, (spanDigits rest).2) else ([], c :: rest)

/-- The value of a digit string. -/
def digitsValue (ds : Bytes) : Nat := ds.foldl (fun acc d => acc * 10 + (d - 48)) 0

/-- An unsigned integer literal: no leading zero, no fraction or exponent after it. -/
def parseNat (bs : Bytes) : Option (Nat × Bytes) :=
  match spanDigits bs with
  | ([], _) => none
  | (d :: more, rest) =>
    if d = 48 ∧ more ≠ [] then none
    else
      match rest with
      | c :: _ => if c = 46 ∨ c = 101 ∨ c = 69 then none else some (digitsValue (d :: more), rest)
      | [] => some (digitsValue (d :: more), rest)

/-- One member value and the input after it. -/
def parseValue (bs : Bytes) : Option (JSONValue × Bytes) :=
  match bs with
  | [] => none
  | c :: rest =>
    if c = 34 then (unquoteLoop rest.length rest).map (fun p => (JSONValue.string p.1, p.2))
    else if c = 45 then (parseNat rest).map (fun p => (JSONValue.number (-(p.1 : Int)), p.2))
    else if isDigit c then (parseNat bs).map (fun p => (JSONValue.number (p.1 : Int), p.2))
    else if bs.take 4 = [116, 114, 117, 101] then some (JSONValue.bool true, bs.drop 4)
    else if bs.take 5 = [102, 97, 108, 115, 101] then some (JSONValue.bool false, bs.drop 5)
    else if bs.take 4 = [110, 117, 108, 108] then some (JSONValue.null, bs.drop 4)
    else none

/-- The members of an object from the first key on, up to and including the closing
brace, and the input after it. The first argument bounds the number of members. -/
def parseMembers : Nat → Bytes → Option (List (Bytes × JSONValue) × Bytes)
  | 0, _ => none
  | _ + 1, [] => none
  | fuel + 1, c :: rest =>
    if c = 34 then
      match unquoteLoop rest.length rest with
      | none => none
      | some (key, r1) =>
        match skipSpace r1 with
        | [] => none
        | c1 :: r2 =>
          if c1 = 58 then
            match parseValue (skipSpace r2) with
            | none => none
            | some (v, r3) =>
              match skipSpace r3 with
              | [] => none
              | c2 :: r4 =>
                if c2 = 125 then some ([(key, v)], r4)
                else if c2 = 44 then
                  (parseMembers fuel (skipSpace r4)).map (fun p => ((key, v) :: p.1, p.2))
                else none
          else none
    else none

/-- The function `json.Unmarshal` on a flat object: its members, or `none`. -/
def Unmarshal (data : Bytes) : Option (List (Bytes × JSONValue)) :=
  match skipSpace data with
  | [] => none
  | c :: rest =>
    if c = 123 then
      match skipSpace rest with
      | [] => none
      | c1 :: r1 =>
        if c1 = 125 then (if skipSpace r1 = [] then some [] else none)
        else
          match parseMembers data.length (c1 :: r1) with
          | none => none
          | some (ms, r2) => if skipSpace r2 = [] then some ms else none
    else none

/-! ## ErrorList -/

/-- The struct `ErrorList`. -/
structure ErrorList where
  Errors : List error
deriving DecidableEq

/-- The function `New`. -/
def New (errs : List error) : ErrorList := { Errors := errs }

/-- The verb `%v` of `fmt` on one operand of interface type `error`: the text of its
`Error()` method, `<nil>` for the nil interface. -/
def formatError : error → Bytes
  | some d => d
  | none => goStr "<nil>"

/-- The element loop of `fmt` on a slice: a space before every element but the first;
`i` is the index of the first element of the remaining slice. -/
def printElems : Nat → List error → Bytes
  | _, [] => []
  | i, e :: rest => (if 0 < i then [32] else []) ++ formatError e ++ printElems (i + 1) rest

/-- The verb `%v` of `fmt` on a `[]error`. -/
def formatSlice (errs : List error) : Bytes := [91] ++ printElems 0 errs ++ [93]

/-- The method `ErrorList.Error`: `fmt.Sprintf("errors: %v", err.Errors)`. -/
def ErrorList.Error (err : ErrorList) : Bytes := goStr "errors: " ++ formatSlice err.Errors

/-- A call `e.Error()` seen from the caller: the text returned and the caller's value
afterwards. The method has a value receiver and only reads the slice. -/
def ErrorList.callError (e : ErrorList) : Bytes × ErrorList := (e.Error, e)

/-! ## Texts and the runes JSON encoding escapes -/

/-- What `appendString` writes for one well-formed rune `r` of its input. -/
def escapeRune (r : Nat) : Bytes :=
  if r < 0x80 then (if htmlSafeSet r then [r] else escapeByte r)
  else if r = 0x2028 ∨ r = 0x2029 then [92, 117, 50, 48, 50, hex (r % 16)]
  else AppendRune r

/-- The characters `appendString` does not copy: controls, the double quote, the
backslash, the ampersand, the angle brackets, U+2028 and U+2029. -/
def jsonEscapes (c : Char) : Bool :=
  decide (c.toNat < 0x20) || c.toNat == 34 || c.toNat == 92 || c.toNat == 38 ||
    c.toNat == 60 || c.toNat == 62 || c.toNat == 0x2028 || c.toNat == 0x2029

/-- A Unicode scalar value: not a surrogate and at most U+10FFFF. -/
def isScalar (r : Nat) : Prop := r < 0xD800 ∨ (0xDFFF < r ∧ r < 0x110000)

/-! # Theorems -/

/-! ## The status table -/

/-- The twelve keys of `errorCodeMap`, in the order of the literal. -/
theorem errorCodeMap_keys :
    errorCodeMap.map Prod.fst = [400, 401, 403, 404, 405, 413, 422, 424, 429, 500, 502, 503] := by
  decide

/-- A map index succeeds exactly on the keys of the association list. -/
theorem lookup_isSome_iff (l : List (Int × Bytes)) (k : Int) :
    (l.lookup k).isSome = true ↔ k ∈ l.map Prod.fst := by
  induction l with
  | nil => simp
  | cons p l ih =>
    obtain ⟨a, b⟩ := p
    by_cases h : k = a
    · subst h
      simp [List.lookup]
    · have h2 : (k == a) = false := by simpa using h
      simp [List.lookup, h2, ih, h]

/-- A recognized code is one of the twelve keys. -/
theorem mapIndex_some_mem {code : Int} {m : Bytes} (h : mapIndex errorCodeMap code = some m) :
    code ∈ [400, 401, 403, 404, 405, 413, 422, 424, 429, 500, 502, 503] := by
  have h1 : (errorCodeMap.lookup code).isSome = true := by
    unfold mapIndex at h
    rw [h]
    rfl
  rw [lookup_isSome_iff, errorCodeMap_keys] at h1
  exact h1

/-- Every table code passes the range check of the recorder's `WriteHeader`. -/
theorem errorCodeMap_checkWriteHeaderCode {code : Int} {m : Bytes}
    (h : mapIndex errorCodeMap code = some m) : checkWriteHeaderCode code = true := by
  have key : ∀ c ∈ [400, 401, 403, 404, 405, 413, 422, 424, 429, 500, 502, 503],
      checkWriteHeaderCode c = true := by decide
  exact key code (mapIndex_some_mem h)

/-- C3, as amended: the table has exactly the twelve keys 400, 401, 403, 404, 405, 413, 422,
424, 429, 500, 502, 503 and no other integer, distinct codes have distinct phrases, and the
phrases are "Bad Request", "Unauthorized", "Forbidden", "Not Found", "Method Not Allowed",
"Entity Too Large", "Unprocessable Entity", "Failed Dependency", "Too Many Requests",
"Internal Server Error", "Bad Gateway", "Service Unavailable". -/
theorem errorCodeMap_table :
    (∀ code : Int, (mapIndex errorCodeMap code ≠ none ↔
      code ∈ [400, 401, 403, 404, 405, 413, 422, 424, 429, 500, 502, 503])) ∧
    (∀ (c1 c2 : Int) (m : Bytes), mapIndex errorCodeMap c1 = some m →
      mapIndex errorCodeMap c2 = some m → c1 = c2) ∧
    errorCodeMap.length = 12 ∧
    mapIndex errorCodeMap 400 = some (goStr "Bad Request") ∧
    mapIndex errorCodeMap 401 = some (goStr "Unauthorized") ∧
    mapIndex errorCodeMap 403 = some (goStr "Forbidden") ∧
    mapIndex errorCodeMap 404 = some (goStr "Not Found") ∧
    mapIndex errorCodeMap 405 = some (goStr "Method Not Allowed") ∧
    mapIndex errorCodeMap 413 = some (goStr "Entity Too Large") ∧
    mapIndex errorCodeMap 422 = some (goStr "Unprocessable Entity") ∧
    mapIndex errorCodeMap 424 = some (goStr "Failed Dependency") ∧
    mapIndex errorCodeMap 429 = some (goStr "Too Many Requests") ∧
    mapIndex errorCodeMap 500 = some (goStr "Internal Server Error") ∧
    mapIndex errorCodeMap 502 = some (goStr "Bad Gateway") ∧
    mapIndex errorCodeMap 503 = some (goStr "Service Unavailable") := by
  refine ⟨?_, ?_, by decide⟩
  · intro code
    rw [← errorCodeMap_keys, ← lookup_isSome_iff]
    unfold mapIndex
    cases List.lookup code errorCodeMap <;> simp
  · intro c1 c2 m h1 h2
    have key : ∀ a ∈ [400, 401, 403, 404, 405, 413, 422, 424, 429, 500, 502, 503],
        ∀ b ∈ [400, 401, 403, 404, 405, 413, 422, 424, 429, 500, 502, 503],
        mapIndex errorCodeMap a = mapIndex errorCodeMap b → a = b := by decide
    exact key c1 (mapIndex_some_mem h1) c2 (mapIndex_some_mem h2) (h1.trans h2.symm)

/-- C3, as stated, fails at 413: the table's phrase is "Entity Too Large", not the cell
"Entity Too Large (Request Entity Too Large)" of the specification's table. -/
theorem errorCodeMap_413_counterexample :
    mapIndex errorCodeMap 413 = some (goStr "Entity Too Large") ∧
    mapIndex errorCodeMap 413 ≠ some (goStr "Entity Too Large (Request Entity Too Large)") := by
  decide

/-! ## WriteError: the panic -/

/-- C2: `WriteError` panics if and only if the code is not a key of the table (so for -1
and 999), the panic is "Invalid error code.", and a call that panics leaves the sink,
whatever its implementation, exactly as it was. -/
theorem WriteError_panics_iff {σ : Type} (rw : ResponseWriter σ)
    (marshalJSON : ErrorJSON → Bytes × error) (w : σ) (code : Int) (reason : Bytes) :
    ((WriteError rw marshalJSON w code reason).isPanicked = true ↔
      mapIndex errorCodeMap code = none) ∧
    ((WriteError rw marshalJSON w code reason).isPanicked = true →
      WriteError rw marshalJSON w code reason = Outcome.panicked "Invalid error code." w ∧
      (WriteError rw marshalJSON w code reason).sink = w) ∧
    mapIndex errorCodeMap (-1) = none ∧ mapIndex errorCodeMap 999 = none := by
  refine ⟨?_, ?_, by decide, by decide⟩
  · unfold WriteError
    cases h : mapIndex errorCodeMap code <;> simp [Outcome.isPanicked]
  · unfold WriteError
    cases h : mapIndex errorCodeMap code <;> simp [Outcome.isPanicked, Outcome.sink]

/-! ## WriteError: the calls on the sink -/

/-- On a recognized code `WriteError` returns, after the calls of `http.Error` when the
serializer failed and then the three calls of the success path. -/
theorem WriteError_recognized {σ : Type} (rw : ResponseWriter σ)
    (marshalJSON : ErrorJSON → Bytes × error) (w : σ) (code : Int) (reason m : Bytes)
    (hcode : mapIndex errorCodeMap code = some m) :
    WriteError rw marshalJSON w code reason =
      Outcome.returned (rw.Write (rw.WriteHeader (rw.HeaderSet
        (if (marshalJSON { Code := code, Message := m, Reason := reason }).2 ≠ none
          then httpError rw w reason code else w)
        "Content-Type" "application/json; charset=UTF-8") code)
        (marshalJSON { Code := code, Message := m, Reason := reason }).1) := by
  unfold WriteError
  simp [hcode]

/-- The log of a call whose serializer failed: the five calls of `http.Error`, then the
three calls of the success path. -/
theorem WriteError_log_failure (marshalJSON : ErrorJSON → Bytes × error) (log : List SinkOp)
    (code : Int) (reason m : Bytes) (hcode : mapIndex errorCodeMap code = some m)
    (herr : (marshalJSON { Code := code, Message := m, Reason := reason }).2 ≠ none) :
    WriteError logSink marshalJSON log code reason =
      Outcome.returned (log ++
        [SinkOp.headerDel "Content-Length",
         SinkOp.headerSet "Content-Type" "text/plain; charset=utf-8",
         SinkOp.headerSet "X-Content-Type-Options" "nosniff",
         SinkOp.writeHeader code,
         SinkOp.write (reason ++ [10]),
         SinkOp.headerSet "Content-Type" "application/json; charset=UTF-8",
         SinkOp.writeHeader code,
         SinkOp.write (marshalJSON { Code := code, Message := m, Reason := reason }).1]) := by
  rw [WriteError_recognized logSink marshalJSON log code reason m hcode]
  simp [herr, httpError, logSink]

/-- The recorder after a call whose serializer failed, from a fresh recorder. -/
theorem WriteError_recorder_failure (detect : Bytes → String)
    (marshalJSON : ErrorJSON → Bytes × error)
    (code : Int) (reason m : Bytes) (hcode : mapIndex errorCodeMap code = some m)
    (herr : (marshalJSON { Code := code, Message := m, Reason := reason }).2 ≠ none) :
    WriteError (recorderSink detect) marshalJSON NewRecorder code reason =
      Outcome.returned
        { Code := code,
          HeaderMap := Header.Set (Header.Set (Header.Set (Header.Del (fun _ => none)
            "Content-Length") "Content-Type" "text/plain; charset=utf-8")
            "X-Content-Type-Options" "nosniff") "Content-Type" "application/json; charset=UTF-8",
          Body := reason ++ [10] ++
            (marshalJSON { Code := code, Message := m, Reason := reason }).1,
          wroteHeader := true,
          snapHeader := some (Header.Set (Header.Set (Header.Del (fun _ => none)
            "Content-Length") "Content-Type" "text/plain; charset=utf-8")
            "X-Content-Type-Options" "nosniff") } := by
  rw [WriteError_recognized (recorderSink detect) marshalJSON NewRecorder code reason m hcode]
  simp [herr, httpError, recorderSink, NewRecorder, ResponseRecorder.WriteHeader,
    ResponseRecorder.Write]

/-- The recorder after a call whose serializer succeeded, from a fresh recorder. -/
theorem WriteError_recorder_success (detect : Bytes → String)
    (marshalJSON : ErrorJSON → Bytes × error)
    (code : Int) (reason m : Bytes) (hcode : mapIndex errorCodeMap code = some m)
    (hok : (marshalJSON { Code := code, Message := m, Reason := reason }).2 = none) :
    WriteError (recorderSink detect) marshalJSON NewRecorder code reason =
      Outcome.returned
        { Code := code,
          HeaderMap := Header.Set (fun _ => none) "Content-Type"
            "application/json; charset=UTF-8",
          Body := (marshalJSON { Code := code, Message := m, Reason := reason }).1,
          wroteHeader := true,
          snapHeader := some (Header.Set (fun _ => none) "Content-Type"
            "application/json; charset=UTF-8") } := by
  rw [WriteError_recognized (recorderSink detect) marshalJSON NewRecorder code reason m hcode]
  simp [hok, recorderSink, NewRecorder, ResponseRecorder.WriteHeader, ResponseRecorder.Write]

/-- C10: on the success path (recognized code, serializer without error) `WriteError`
makes exactly three calls on the sink, once each and in this order: set `Content-Type` to
`application/json; charset=UTF-8`, write the status line with the code, write the
serialized bytes; the log holds no other call, so no other header is set or removed. -/
theorem WriteError_success_three_calls (marshalJSON : ErrorJSON → Bytes × error)
    (log : List SinkOp) (code : Int) (reason m : Bytes)
    (hcode : mapIndex errorCodeMap code = some m)
    (hok : (marshalJSON { Code := code, Message := m, Reason := reason }).2 = none) :
    WriteError logSink marshalJSON log code reason =
      Outcome.returned (log ++
        [SinkOp.headerSet "Content-Type" "application/json; charset=UTF-8",
         SinkOp.writeHeader code,
         SinkOp.write (marshalJSON { Code := code, Message := m, Reason := reason }).1]) := by
  rw [WriteError_recognized logSink marshalJSON log code reason m hcode]
  simp [hok, logSink]

/-- C10 at code 401 with `json.Marshal`. -/
theorem WriteError_success_three_calls_witness :
    WriteError logSink Marshal [] 401 (goStr "missing token") =
      Outcome.returned ([] ++
        [SinkOp.headerSet "Content-Type" "application/json; charset=UTF-8",
         SinkOp.writeHeader 401,
         SinkOp.write
           (Marshal ⟨401, goStr "Unauthorized", goStr "missing token"⟩).1]) :=
  WriteError_success_three_calls Marshal [] 401 (goStr "missing token") (goStr "Unauthorized")
    (by decide) (by decide)

/-- C4: when the serializer returns an error, whatever bytes come with it, `WriteError`
on a recognized code returns without a panic and the status the recorder holds is the
code; every status line call in the log carries the code. -/
theorem WriteError_marshal_error_status (detect : Bytes → String)
    (marshalJSON : ErrorJSON → Bytes × error)
    (code : Int) (reason m : Bytes) (hcode : mapIndex errorCodeMap code = some m)
    (herr : (marshalJSON { Code := code, Message := m, Reason := reason }).2 ≠ none) :
    (WriteError (recorderSink detect) marshalJSON NewRecorder code reason).isPanicked = false ∧
    (WriteError (recorderSink detect) marshalJSON NewRecorder code reason).sink.Code = code ∧
    (∀ c : Int, SinkOp.writeHeader c ∈ (WriteError logSink marshalJSON [] code reason).sink →
      c = code) := by
  rw [WriteError_recorder_failure detect marshalJSON code reason m hcode herr,
    WriteError_log_failure marshalJSON [] code reason m hcode herr]
  refine ⟨rfl, rfl, ?_⟩
  intro c hc
  simp [Outcome.sink] at hc
  exact hc

/-- C4 at the input of `TestUnableToMarshalJSON`: code 404, reason "Entity Not Found", a
serializer returning no bytes and an error. -/
theorem WriteError_marshal_error_status_witness :
    (WriteError (recorderSink (fun _ => "")) (fun _ => ([], some (goStr "TEST_ERROR")))
      NewRecorder 404 (goStr "Entity Not Found")).isPanicked = false ∧
    (WriteError (recorderSink (fun _ => "")) (fun _ => ([], some (goStr "TEST_ERROR")))
      NewRecorder 404 (goStr "Entity Not Found")).sink.Code = 404 ∧
    (∀ c : Int, SinkOp.writeHeader c ∈ (WriteError logSink
      (fun _ => ([], some (goStr "TEST_ERROR"))) [] 404 (goStr "Entity Not Found")).sink →
      c = 404) :=
  WriteError_marshal_error_status (fun _ => "") (fun _ => ([], some (goStr "TEST_ERROR")))
    404 (goStr "Entity Not Found") (goStr "Not Found") (by decide) (by decide)

/-- C5 fails in the code: at the input of `TestUnableToMarshalJSON` (code 404, reason
"Entity Not Found", a serializer returning no bytes and an error) the sink receives the
status line twice and two body writes, the second of each after the plain-text response
of `http.Error`. -/
theorem WriteError_marshal_error_double_write :
    (WriteError logSink (fun _ => ([], some (goStr "TEST_ERROR"))) [] 404
      (goStr "Entity Not Found")).sink.filter SinkOp.isWriteHeader =
      [SinkOp.writeHeader 404, SinkOp.writeHeader 404] ∧
    (WriteError logSink (fun _ => ([], some (goStr "TEST_ERROR"))) [] 404
      (goStr "Entity Not Found")).sink.filter SinkOp.isWrite =
      [SinkOp.write (goStr "Entity Not Found\n"), SinkOp.write []] ∧
    ((WriteError logSink (fun _ => ([], some (goStr "TEST_ERROR"))) [] 404
      (goStr "Entity Not Found")).sink.filter SinkOp.isWriteHeader).length = 2 ∧
    ((WriteError logSink (fun _ => ([], some (goStr "TEST_ERROR"))) [] 404
      (goStr "Entity Not Found")).sink.filter SinkOp.isWrite).length = 2 := by
  decide

/-! ## ErrorList -/

/-- The element loop from a positive index puts a space before every element. -/
theorem printElems_succ (descs : List Bytes) (i : Nat) :
    printElems (i + 1) (descs.map some) = (descs.map (fun d => [32] ++ d)).flatten := by
  induction descs generalizing i with
  | nil => rfl
  | cons d ds ih =>
    simp only [List.map_cons, printElems, List.flatten_cons, formatError]
    rw [ih]
    simp

/-- The element loop from index 0 joins the descriptions with single spaces. -/
theorem printElems_zero (descs : List Bytes) :
    printElems 0 (descs.map some) = List.intercalate [32] descs := by
  cases descs with
  | nil => rfl
  | cons d ds =>
    simp only [List.map_cons, printElems, formatError]
    rw [printElems_succ]
    simp only [List.intercalate, List.intersperse]
    induction ds generalizing d with
    | nil => simp
    | cons e es ih =>
      have h := ih e
      simp only [lt_self_iff_false, if_false, List.nil_append] at h ⊢
      simp only [List.map_cons, List.flatten_cons, List.intersperse, List.append_assoc]
      rw [h]

/-- C7: for errors with descriptions `descs` (none of them nil), `New(errs).Error()` is
"errors: [" followed by the descriptions in order joined by single spaces and "]"; the
empty list gives "errors: []" and first, second, third give
"errors: [first second third]". -/
theorem ErrorList_Error_format (descs : List Bytes) :
    (New (descs.map some)).Error =
      goStr "errors: [" ++ List.intercalate [32] descs ++ goStr "]" ∧
    (New []).Error = goStr "errors: []" ∧
    (New [some (goStr "first"), some (goStr "second"), some (goStr "third")]).Error =
      goStr "errors: [first second third]" := by
  refine ⟨?_, by decide, by decide⟩
  unfold ErrorList.Error New formatSlice
  rw [printElems_zero]
  have h1 : goStr "errors: [" = goStr "errors: " ++ [91] := by decide
  have h2 : goStr "]" = [93] := by decide
  rw [h1, h2]
  simp

/-- C9: `New` wraps the sequence it is given unchanged, same length and same member at
every position, and a call of `Error()` leaves the wrapped sequence as it was. -/
theorem New_wraps_unchanged (errs : List error) :
    (New errs).Errors = errs ∧
    (New errs).Errors.length = errs.length ∧
    (∀ i : Nat, (New errs).Errors.get? i = errs.get? i) ∧
    (New errs).callError.2.Errors = errs ∧
    (New errs).callError.1 = (New errs).Error :=
  ⟨rfl, rfl, fun _ => rfl, rfl, rfl⟩

/-! ## UTF-8 -/

/-- A character is a scalar value. -/
theorem isScalar_toNat (c : Char) : isScalar c.toNat := by
  have h := c.valid
  unfold isScalar
  simp only [Char.toNat, UInt32.isValidChar, Nat.isValidChar] at *
  omega

/-- Decoding the encoding of a scalar value above ASCII gives the value back, with the
width of the encoding. -/
theorem DecodeRune_AppendRune (r : Nat) (hr : 0x80 ≤ r) (hs : isScalar r) (rest : Bytes) :
    DecodeRune (AppendRune r ++ rest) = (r, (AppendRune r).length) := by
  unfold isScalar at hs
  unfold AppendRune
  have h1 : ¬ r ≤ 0x7F := by omega
  rw [if_neg h1]
  by_cases h2 : r ≤ 0x7FF
  · rw [if_pos h2]
    simp only [List.cons_append, List.nil_append, DecodeRune, isCont, List.length_cons,
      List.length_nil]
    have a1 : ¬ (0xC0 + r / 64 < 0x80) := by omega
    have a2 : 0xC2 ≤ 0xC0 + r / 64 ∧ 0xC0 + r / 64 ≤ 0xDF := by omega
    have a3 : (decide (0x80 ≤ 0x80 + r % 64) && decide (0x80 + r % 64 ≤ 0xBF)) = true := by
      simp; omega
    rw [if_neg a1, if_pos a2, if_pos a3]
    congr 1
    omega
  · rw [if_neg h2]
    have h3 : ¬ (0x10FFFF < r ∨ (0xD800 ≤ r ∧ r ≤ 0xDFFF)) := by omega
    rw [if_neg h3]
    by_cases h4 : r ≤ 0xFFFF
    · rw [if_pos h4]
      simp only [List.cons_append, List.nil_append, DecodeRune, isCont, List.length_cons,
        List.length_nil, acceptLo, acceptHi]
      have a1 : ¬ (0xE0 + r / 4096 < 0x80) := by omega
      have a2 : ¬ (0xC2 ≤ 0xE0 + r / 4096 ∧ 0xE0 + r / 4096 ≤ 0xDF) := by omega
      have a3 : 0xE0 ≤ 0xE0 + r / 4096 ∧ 0xE0 + r / 4096 ≤ 0xEF := by omega
      rw [if_neg a1, if_neg a2, if_pos a3]
      have a4 : (if 0xE0 + r / 4096 = 0xE0 then 0xA0 else
            if 0xE0 + r / 4096 = 0xF0 then 0x90 else 0x80) ≤ 0x80 + r / 64 % 64 ∧
          0x80 + r / 64 % 64 ≤ (if 0xE0 + r / 4096 = 0xED then 0x9F else
            if 0xE0 + r / 4096 = 0xF4 then 0x8F else 0xBF) ∧
          (decide (0x80 ≤ 0x80 + r % 64) && decide (0x80 + r % 64 ≤ 0xBF)) = true := by
        refine ⟨?_, ?_, ?_⟩
        · split_ifs <;> omega
        · split_ifs <;> omega
        · simp; omega
      rw [if_pos a4]
      congr 1
      omega
    · rw [if_neg h4]
      simp only [List.cons_append, List.nil_append, DecodeRune, isCont, List.length_cons,
        List.length_nil, acceptLo, acceptHi]
      have a1 : ¬ (0xF0 + r / 262144 < 0x80) := by omega
      have a2 : ¬ (0xC2 ≤ 0xF0 + r / 262144 ∧ 0xF0 + r / 262144 ≤ 0xDF) := by omega
      have a3 : ¬ (0xE0 ≤ 0xF0 + r / 262144 ∧ 0xF0 + r / 262144 ≤ 0xEF) := by omega
      have a3b : 0xF0 ≤ 0xF0 + r / 262144 ∧ 0xF0 + r / 262144 ≤ 0xF4 := by omega
      rw [if_neg a1, if_neg a2, if_neg a3, if_pos a3b]
      have a4 : (if 0xF0 + r / 262144 = 0xE0 then 0xA0 else
            if 0xF0 + r / 262144 = 0xF0 then 0x90 else 0x80) ≤ 0x80 + r / 4096 % 64 ∧
          0x80 + r / 4096 % 64 ≤ (if 0xF0 + r / 262144 = 0xED then 0x9F else
            if 0xF0 + r / 262144 = 0xF4 then 0x8F else 0xBF) ∧
          (decide (0x80 ≤ 0x80 + r / 64 % 64) && decide (0x80 + r / 64 % 64 ≤ 0xBF)) = true ∧
          (decide (0x80 ≤ 0x80 + r % 64) && decide (0x80 + r % 64 ≤ 0xBF)) = true := by
        refine ⟨?_, ?_, ?_, ?_⟩
        · split_ifs <;> omega
        · split_ifs <;> omega
        · simp; omega
        · simp; omega
      rw [if_pos a4]
      congr 1
      omega

/-- An ASCII rune is encoded as itself. -/
theorem AppendRune_ascii (r : Nat) (h : r < 0x80) : AppendRune r = [r] := by
  unfold AppendRune
  rw [if_pos (by omega)]

/-- The encoding of a scalar value above ASCII starts with a byte above ASCII and has at
least two bytes. -/
theorem AppendRune_lead (r : Nat) (hr : 0x80 ≤ r) (hs : isScalar r) :
    ∃ b tl, AppendRune r = b :: tl ∧ 0x80 ≤ b ∧ 2 ≤ (AppendRune r).length := by
  unfold isScalar at hs
  unfold AppendRune
  rw [if_neg (by omega)]
  split_ifs
  · exact ⟨_, _, rfl, by omega, by simp⟩
  · omega
  · exact ⟨_, _, rfl, by omega, by simp⟩
  · exact ⟨_, _, rfl, by omega, by simp⟩

/-- Every encoding has at least one byte. -/
theorem AppendRune_length_pos (r : Nat) : 0 < (AppendRune r).length := by
  unfold AppendRune
  split_ifs <;> simp

/-- One iteration of `appendString` on a well-formed rune. -/
theorem appendStringLoop_rune (r : Nat) (hs : isScalar r) (fuel : Nat) (rest : Bytes) :
    appendStringLoop (fuel + 1) (AppendRune r ++ rest) =
      escapeRune r ++ appendStringLoop fuel rest := by
  by_cases hr : r < 0x80
  · rw [AppendRune_ascii r hr]
    simp only [List.cons_append, List.nil_append, appendStringLoop, escapeRune, if_pos hr]
    split_ifs <;> rfl
  · obtain ⟨b, tl, hb, hb80, hlen⟩ := AppendRune_lead r (by omega) hs
    have hd : DecodeRune (b :: (tl ++ rest)) = (r, (AppendRune r).length) := by
      rw [← List.cons_append, ← hb]
      exact DecodeRune_AppendRune r (by omega) hs rest
    have htake : List.take (AppendRune r).length (b :: (tl ++ rest)) = AppendRune r := by
      rw [← List.cons_append, ← hb]
      exact List.take_left' rfl
    have hdrop : List.drop (AppendRune r).length (b :: (tl ++ rest)) = rest := by
      rw [← List.cons_append, ← hb]
      exact List.drop_left' rfl
    rw [hb, List.cons_append, appendStringLoop, if_neg (by omega)]
    simp only [hd, htake, hdrop]
    have h1 : ¬ (r = RuneError ∧ (AppendRune r).length = 1) := by
      intro h
      omega
    rw [if_neg h1]
    unfold escapeRune
    rw [if_neg hr]
    split_ifs <;> rfl

/-- On the encoding of a text `appendString` writes, rune by rune, `escapeRune`. -/
theorem appendStringLoop_encodeRunes (cs : List Char) :
    ∀ fuel, cs.length ≤ fuel →
      appendStringLoop fuel (encodeRunes cs) = cs.flatMap (fun c => escapeRune c.toNat) := by
  induction cs with
  | nil =>
    intro fuel _
    cases fuel <;> rfl
  | cons c cs ih =>
    intro fuel hfuel
    obtain ⟨f, rfl⟩ : ∃ f, fuel = f + 1 := ⟨fuel - 1, by simp at hfuel; omega⟩
    have hc : encodeRunes (c :: cs) = AppendRune c.toNat ++ encodeRunes cs := by
      simp [encodeRunes]
    rw [hc, appendStringLoop_rune _ (isScalar_toNat c), ih f (by simp at hfuel; omega)]
    simp

/-- The encoding of a text has at least as many bytes as the text has characters. -/
theorem length_le_encodeRunes (cs : List Char) : cs.length ≤ (encodeRunes cs).length := by
  induction cs with
  | nil => simp
  | cons c cs ih =>
    have hc : encodeRunes (c :: cs) = AppendRune c.toNat ++ encodeRunes cs := by
      simp [encodeRunes]
    have := AppendRune_length_pos c.toNat
    rw [hc, List.length_append, List.length_cons]
    omega

/-- The quoted JSON string `appendString` writes for a text. -/
theorem appendString_encodeRunes (cs : List Char) :
    appendString (encodeRunes cs) =
      34 :: cs.flatMap (fun c => escapeRune c.toNat) ++ [34] := by
  unfold appendString
  rw [appendStringLoop_encodeRunes cs _ (length_le_encodeRunes cs)]

/-- A character that `appendString` does not escape is copied. -/
theorem escapeRune_plain (c : Char) (h : jsonEscapes c = false) :
    escapeRune c.toNat = AppendRune c.toNat := by
  unfold jsonEscapes at h
  simp only [Bool.or_eq_false_iff, decide_eq_false_iff_not, beq_eq_false_iff_ne] at h
  unfold escapeRune
  by_cases hr : c.toNat < 0x80
  · rw [if_pos hr, AppendRune_ascii _ hr]
    have hsafe : htmlSafeSet c.toNat = true := by
      unfold htmlSafeSet
      simp
      omega
    rw [if_pos hsafe]
  · rw [if_neg hr, if_neg (by omega)]

/-- A text without escaped characters is written between the quotes as it is. -/
theorem appendString_plain (cs : List Char) (h : ∀ c ∈ cs, jsonEscapes c = false) :
    appendString (encodeRunes cs) = 34 :: encodeRunes cs ++ [34] := by
  rw [appendString_encodeRunes]
  congr 2
  unfold encodeRunes
  induction cs with
  | nil => rfl
  | cons c cs ih =>
    simp only [List.flatMap_cons]
    rw [escapeRune_plain c (h c (by simp)), ih (fun d hd => h d (by simp [hd]))]

/-! ## Decoding what `appendString` wrote -/

/-- The digit `hex[d]` has value `d`. -/
theorem hexValue_hex : ∀ d, d < 16 → hexValue (hex d) = some d := by
  decide

/-- The escape `\u00XX` of a byte below 128 is read back as the byte. -/
theorem getu4_u00 (b : Nat) (hb : b < 128) (rest : Bytes) :
    getu4 (92 :: 117 :: 48 :: 48 :: hex (b / 16) :: hex (b % 16) :: rest) = some b := by
  have h0 : hexValue 48 = some 0 := by decide
  simp only [getu4, h0, hexValue_hex (b / 16) (by omega), hexValue_hex (b % 16) (by omega)]
  simp
  omega

/-- One step of the string scanner on what `appendString` wrote for a well-formed rune. -/
theorem unquoteLoop_rune (r : Nat) (hs : isScalar r) (fuel : Nat) (rest : Bytes) :
    unquoteLoop (fuel + 1) (escapeRune r ++ rest) =
      consDecoded (AppendRune r) (unquoteLoop fuel rest) := by
  unfold escapeRune
  by_cases hr : r < 0x80
  · rw [if_pos hr, AppendRune_ascii r hr]
    by_cases hsafe : htmlSafeSet r = true
    · rw [if_pos hsafe]
      unfold htmlSafeSet at hsafe
      simp only [Bool.and_eq_true, decide_eq_true_eq, Bool.not_eq_true', Bool.or_eq_false_iff,
        beq_eq_false_iff_ne] at hsafe
      show unquoteLoop (fuel + 1) (r :: rest) = _
      simp only [unquoteLoop]
      rw [if_neg (by omega), if_neg (by omega), if_neg (by omega), if_pos hr]
    · rw [if_neg hsafe]
      unfold escapeByte
      by_cases h1 : r = 92 ∨ r = 34
      · rw [if_pos h1]
        rcases h1 with h1 | h1 <;> subst h1 <;> simp [unquoteLoop, simpleEscape]
      · rw [if_neg h1]
        by_cases h2 : r = 8
        · subst h2
          simp [unquoteLoop, simpleEscape]
        by_cases h3 : r = 12
        · subst h3
          simp [unquoteLoop, simpleEscape]
        by_cases h4 : r = 10
        · subst h4
          simp [unquoteLoop, simpleEscape]
        by_cases h5 : r = 13
        · subst h5
          simp [unquoteLoop, simpleEscape]
        by_cases h6 : r = 9
        · subst h6
          simp [unquoteLoop, simpleEscape]
        rw [if_neg h2, if_neg h3, if_neg h4, if_neg h5, if_neg h6]
        show unquoteLoop (fuel + 1)
          (92 :: 117 :: 48 :: 48 :: hex (r / 16) :: hex (r % 16) :: rest) = _
        simp only [unquoteLoop, getu4_u00 r hr]
        rw [if_neg (by decide), if_pos trivial, if_pos trivial, if_neg (by omega),
          AppendRune_ascii r hr]
        rfl
  · rw [if_neg hr]
    by_cases h28 : r = 0x2028 ∨ r = 0x2029
    · rw [if_pos h28]
      rcases h28 with h | h <;> subst h <;>
        simp [unquoteLoop, getu4, hexValue, hex, AppendRune, consDecoded]
    · rw [if_neg h28]
      obtain ⟨b, tl, hb, hb80, hlen⟩ := AppendRune_lead r (by omega) hs
      have hd : DecodeRune (b :: (tl ++ rest)) = (r, (AppendRune r).length) := by
        rw [← List.cons_append, ← hb]
        exact DecodeRune_AppendRune r (by omega) hs rest
      have hdrop : List.drop (AppendRune r).length (b :: (tl ++ rest)) = rest := by
        rw [← List.cons_append, ← hb]
        exact List.drop_left' rfl
      have e1 : unquoteLoop (fuel + 1) (AppendRune r ++ rest) =
          unquoteLoop (fuel + 1) (b :: (tl ++ rest)) := by
        rw [hb, List.cons_append]
      rw [e1]
      simp only [unquoteLoop]
      rw [if_neg (by omega), if_neg (by omega), if_neg (by omega), if_neg (by omega)]
      simp only [hd, hdrop]

/-- The string scanner reads back a text from what `appendString` wrote for it, up to the
closing quote. -/
theorem unquoteLoop_escaped (cs : List Char) :
    ∀ (fuel : Nat) (rest : Bytes), cs.length < fuel →
      unquoteLoop fuel (cs.flatMap (fun c => escapeRune c.toNat) ++ 34 :: rest) =
        some (encodeRunes cs, rest) := by
  induction cs with
  | nil =>
    intro fuel rest hfuel
    obtain ⟨f, rfl⟩ : ∃ f, fuel = f + 1 := ⟨fuel - 1, by simp at hfuel; omega⟩
    simp [unquoteLoop, encodeRunes]
  | cons c cs ih =>
    intro fuel rest hfuel
    obtain ⟨f, rfl⟩ : ∃ f, fuel = f + 1 := ⟨fuel - 1, by simp at hfuel; omega⟩
    have hc : encodeRunes (c :: cs) = AppendRune c.toNat ++ encodeRunes cs := by
      simp [encodeRunes]
    rw [List.flatMap_cons, List.append_assoc, unquoteLoop_rune _ (isScalar_toNat c),
      ih f rest (by simp at hfuel; omega), hc]
    rfl

/-- What `appendString` writes is at least as long as the text. -/
theorem length_le_escaped (cs : List Char) :
    cs.length ≤ (cs.flatMap (fun c => escapeRune c.toNat)).length := by
  induction cs with
  | nil => simp
  | cons c cs ih =>
    have h : 0 < (escapeRune c.toNat).length := by
      unfold escapeRune escapeByte
      have := AppendRune_length_pos c.toNat
      split_ifs <;> simp
      omega
    rw [List.flatMap_cons, List.length_append, List.length_cons]
    omega

/-- Reading a member value that is the JSON string written for a text. -/
theorem parseValue_appendString (cs : List Char) (rest : Bytes) :
    parseValue (appendString (encodeRunes cs) ++ rest) =
      some (JSONValue.string (encodeRunes cs), rest) := by
  rw [appendString_encodeRunes]
  simp only [List.cons_append, List.append_assoc, List.nil_append, parseValue]
  rw [if_pos trivial, unquoteLoop_escaped cs _ rest]
  · rfl
  · have := length_le_escaped cs
    simp only [List.length_append, List.length_cons]
    omega

/-- On a text without escaped characters `escapeRune` is the encoding. -/
theorem encodeRunes_eq_escaped (cs : List Char) (h : ∀ c ∈ cs, jsonEscapes c = false) :
    encodeRunes cs = cs.flatMap (fun c => escapeRune c.toNat) := by
  unfold encodeRunes
  induction cs with
  | nil => rfl
  | cons c cs ih =>
    simp only [List.flatMap_cons]
    rw [escapeRune_plain c (h c (by simp)), ih (fun d hd => h d (by simp [hd]))]

/-- The string scanner reads an unescaped text as it is. -/
theorem unquoteLoop_plain (cs : List Char) (h : ∀ c ∈ cs, jsonEscapes c = false)
    (fuel : Nat) (rest : Bytes) (hfuel : cs.length < fuel) :
    unquoteLoop fuel (encodeRunes cs ++ 34 :: rest) = some (encodeRunes cs, rest) := by
  have e := encodeRunes_eq_escaped cs h
  have e2 := unquoteLoop_escaped cs fuel rest hfuel
  rw [← e] at e2
  exact e2

/-- A quoted JSON string does not start with white space. -/
theorem skipSpace_appendString (s rest : Bytes) :
    skipSpace (appendString s ++ rest) = appendString s ++ rest := by
  unfold appendString
  simp [skipSpace, isSpace]

/-- A member that is followed by a comma and the next key. -/
theorem parseMembers_more (fuel : Nat) (kcs : List Char)
    (hk : ∀ c ∈ kcs, jsonEscapes c = false) (vbytes : Bytes) (v : JSONValue) (rest : Bytes)
    (hv : parseValue (vbytes ++ 44 :: 34 :: rest) = some (v, 44 :: 34 :: rest))
    (hsp : skipSpace (vbytes ++ 44 :: 34 :: rest) = vbytes ++ 44 :: 34 :: rest) :
    parseMembers (fuel + 1) (34 :: (encodeRunes kcs ++ 34 :: 58 :: (vbytes ++ 44 :: 34 :: rest))) =
      (parseMembers fuel (34 :: rest)).map (fun p => ((encodeRunes kcs, v) :: p.1, p.2)) := by
  have hkey := unquoteLoop_plain kcs hk
    (encodeRunes kcs ++ 34 :: 58 :: (vbytes ++ 44 :: 34 :: rest)).length
    (58 :: (vbytes ++ 44 :: 34 :: rest))
    (by
      have := length_le_encodeRunes kcs
      simp only [List.length_append, List.length_cons]
      omega)
  simp only [parseMembers]
  rw [if_pos trivial, hkey]
  have h58 : ∀ x : Bytes, skipSpace (58 :: x) = 58 :: x := by
    intro x
    simp [skipSpace, isSpace]
  have h44 : ∀ x : Bytes, skipSpace (44 :: x) = 44 :: x := by
    intro x
    simp [skipSpace, isSpace]
  have h34 : ∀ x : Bytes, skipSpace (34 :: x) = 34 :: x := by
    intro x
    simp [skipSpace, isSpace]
  simp only [h58, if_true, hsp, hv, h44, h34]
  simp

/-- The last member, followed by the closing brace. -/
theorem parseMembers_last (fuel : Nat) (kcs : List Char)
    (hk : ∀ c ∈ kcs, jsonEscapes c = false) (vbytes : Bytes) (v : JSONValue) (rest : Bytes)
    (hv : parseValue (vbytes ++ 125 :: rest) = some (v, 125 :: rest))
    (hsp : skipSpace (vbytes ++ 125 :: rest) = vbytes ++ 125 :: rest) :
    parseMembers (fuel + 1) (34 :: (encodeRunes kcs ++ 34 :: 58 :: (vbytes ++ 125 :: rest))) =
      some ([(encodeRunes kcs, v)], rest) := by
  have hkey := unquoteLoop_plain kcs hk
    (encodeRunes kcs ++ 34 :: 58 :: (vbytes ++ 125 :: rest)).length
    (58 :: (vbytes ++ 125 :: rest))
    (by
      have := length_le_encodeRunes kcs
      simp only [List.length_append, List.length_cons]
      omega)
  simp only [parseMembers]
  rw [if_pos trivial, hkey]
  have h58 : ∀ x : Bytes, skipSpace (58 :: x) = 58 :: x := by
    intro x
    simp [skipSpace, isSpace]
  have h125 : ∀ x : Bytes, skipSpace (125 :: x) = 125 :: x := by
    intro x
    simp [skipSpace, isSpace]
  simp only [h58, if_true, hsp, hv, h125]

/-- A three-digit literal without a leading zero, followed by a comma. -/
theorem parseValue_three_digits (a b c : Nat) (ha : isDigit a = true) (ha0 : a ≠ 48)
    (hb : isDigit b = true) (hc : isDigit c = true) (rest : Bytes) :
    parseValue ([a, b, c] ++ 44 :: rest) =
      some (JSONValue.number (digitsValue [a, b, c] : Nat), 44 :: rest) ∧
    skipSpace ([a, b, c] ++ 44 :: rest) = [a, b, c] ++ 44 :: rest := by
  have h44 : isDigit 44 = false := by decide
  have hsp : isSpace a = false := by
    unfold isDigit at ha
    unfold isSpace
    simp at ha ⊢
    omega
  have h45 : a ≠ 45 := by
    unfold isDigit at ha
    simp at ha
    omega
  have h34 : a ≠ 34 := by
    unfold isDigit at ha
    simp at ha
    omega
  constructor
  · simp [parseValue, parseNat, spanDigits, ha, hb, hc, h44, ha0, h45, h34]
  · simp [skipSpace, hsp]

/-- The decimal digits of a table code are read back as the code. -/
theorem parseValue_code : ∀ code ∈ [400, 401, 403, 404, 405, 413, 422, 424, 429, 500, 502, 503],
    ∀ rest : Bytes,
      parseValue (appendInt code ++ 44 :: rest) = some (JSONValue.number code, 44 :: rest) ∧
      skipSpace (appendInt code ++ 44 :: rest) = appendInt code ++ 44 :: rest := by
  intro code hmem rest
  have key : ∀ c ∈ [400, 401, 403, 404, 405, 413, 422, 424, 429, 500, 502, 503],
      appendInt c = [(appendInt c).getD 0 0, (appendInt c).getD 1 0, (appendInt c).getD 2 0] ∧
      isDigit ((appendInt c).getD 0 0) = true ∧ (appendInt c).getD 0 0 ≠ 48 ∧
      isDigit ((appendInt c).getD 1 0) = true ∧ isDigit ((appendInt c).getD 2 0) = true ∧
      ((digitsValue (appendInt c) : Nat) : Int) = c := by decide
  obtain ⟨e, ha, ha0, hb, hc, hval⟩ := key code hmem
  have h3 := parseValue_three_digits _ _ _ ha ha0 hb hc rest
  rw [← e, hval] at h3
  exact h3

/-- The bytes `json.Marshal` writes for an `ErrorJSON`, member by member. -/
theorem Marshal_members (v : ErrorJSON) :
    (Marshal v).1 = 123 :: 34 :: (encodeRunes "code".toList ++ 34 :: 58 :: (appendInt v.Code ++
      44 :: 34 :: (encodeRunes "message".toList ++ 34 :: 58 :: (appendString v.Message ++
      44 :: 34 :: (encodeRunes "reason".toList ++ 34 :: 58 :: (appendString v.Reason ++
      125 :: [])))))) := by
  have k1 : goStr "\"code\":" = 34 :: (encodeRunes "code".toList ++ [34, 58]) := by decide
  have k2 : goStr ",\"message\":" = 44 :: 34 :: (encodeRunes "message".toList ++ [34, 58]) := by
    decide
  have k3 : goStr ",\"reason\":" = 44 :: 34 :: (encodeRunes "reason".toList ++ [34, 58]) := by
    decide
  unfold Marshal
  rw [k1, k2, k3]
  simp

/-- An object whose members the member loop reads to the end of the input. -/
theorem Unmarshal_object (r : Bytes) (ms : List (Bytes × JSONValue))
    (h : parseMembers (123 :: 34 :: r).length (34 :: r) = some (ms, [])) :
    Unmarshal (123 :: 34 :: r) = some ms := by
  have h123 : skipSpace (123 :: 34 :: r) = 123 :: 34 :: r := by simp [skipSpace, isSpace]
  have h34 : skipSpace (34 :: r) = 34 :: r := by simp [skipSpace, isSpace]
  unfold Unmarshal
  simp only [h123, h34, if_true]
  rw [if_neg (by decide), h]
  simp [skipSpace]

/-- Decoding what `json.Marshal` wrote for a table code, its phrase and a reason that is
a text gives back the three fields. -/
theorem Unmarshal_Marshal (code : Int) (mcs cs : List Char)
    (hcode : code ∈ [400, 401, 403, 404, 405, 413, 422, 424, 429, 500, 502, 503]) :
    Unmarshal (Marshal ⟨code, encodeRunes mcs, encodeRunes cs⟩).1 =
      some [(goStr "code", JSONValue.number code),
        (goStr "message", JSONValue.string (encodeRunes mcs)),
        (goStr "reason", JSONValue.string (encodeRunes cs))] := by
  rw [Marshal_members]
  apply Unmarshal_object
  obtain ⟨f, hf⟩ : ∃ f, (123 :: 34 :: (encodeRunes "code".toList ++ 34 :: 58 ::
      (appendInt code ++ 44 :: 34 :: (encodeRunes "message".toList ++ 34 :: 58 ::
      (appendString (encodeRunes mcs) ++ 44 :: 34 :: (encodeRunes "reason".toList ++
      34 :: 58 :: (appendString (encodeRunes cs) ++ 125 :: []))))))).length = f + 2 + 1 := by
    refine ⟨(encodeRunes "code".toList).length + (appendInt code).length +
      (encodeRunes "message".toList).length + (appendString (encodeRunes mcs)).length +
      (encodeRunes "reason".toList).length + (appendString (encodeRunes cs)).length + 10, ?_⟩
    simp only [List.length_cons, List.length_append, List.length_nil]
    omega
  rw [hf]
  obtain ⟨hv1, hs1⟩ := parseValue_code code hcode (34 :: (encodeRunes "message".toList ++
      34 :: 58 :: (appendString (encodeRunes mcs) ++ 44 :: 34 :: (encodeRunes "reason".toList ++
      34 :: 58 :: (appendString (encodeRunes cs) ++ 125 :: [])))))
  rw [parseMembers_more (f + 2) "code".toList (by decide) (appendInt code)
      (JSONValue.number code) _ hv1 hs1,
    parseMembers_more (f + 1) "message".toList (by decide) (appendString (encodeRunes mcs))
      (JSONValue.string (encodeRunes mcs)) _ (parseValue_appendString mcs _)
      (skipSpace_appendString _ _),
    parseMembers_last f "reason".toList (by decide) (appendString (encodeRunes cs))
      (JSONValue.string (encodeRunes cs)) _ (parseValue_appendString cs _)
      (skipSpace_appendString _ _)]
  rfl

/-! ## WriteError with json.Marshal -/

/-- Every phrase of the table is a text without characters that JSON encoding escapes. -/
theorem errorCodeMap_phrase_text {code : Int} {m : Bytes}
    (h : mapIndex errorCodeMap code = some m) :
    ∃ t : String, m = goStr t ∧ ∀ c ∈ t.toList, jsonEscapes c = false := by
  have key : ∀ c ∈ [400, 401, 403, 404, 405, 413, 422, 424, 429, 500, 502, 503],
      ∃ t ∈ ["Bad Request", "Unauthorized", "Forbidden", "Not Found", "Method Not Allowed",
        "Entity Too Large", "Unprocessable Entity", "Failed Dependency", "Too Many Requests",
        "Internal Server Error", "Bad Gateway", "Service Unavailable"],
      mapIndex errorCodeMap c = some (goStr t) ∧ ∀ ch ∈ t.toList, jsonEscapes ch = false := by
    decide
  obtain ⟨t, _, ht, hplain⟩ := key code (mapIndex_some_mem h)
  rw [h] at ht
  exact ⟨t, Option.some.inj ht, hplain⟩

/-- C1, as amended: for every code of the table and every reason that is a text in UTF-8
(the empty one included), `WriteError` with `json.Marshal` on a fresh recorder returns and
leaves status equal to the code, `Content-Type` equal to
`application/json; charset=UTF-8` (in the header map and in the headers sent with the
status line) and a body that decodes as the JSON object with exactly the members
code = the code, message = the table's phrase, reason = the reason. -/
theorem WriteError_json_response (detect : Bytes → String) (code : Int) (m : Bytes)
    (text : String) (hcode : mapIndex errorCodeMap code = some m) :
    (WriteError (recorderSink detect) Marshal NewRecorder code (goStr text)).isPanicked = false ∧
    (WriteError (recorderSink detect) Marshal NewRecorder code (goStr text)).sink.Code = code ∧
    Header.Get (WriteError (recorderSink detect) Marshal NewRecorder code
      (goStr text)).sink.HeaderMap "Content-Type" = "application/json; charset=UTF-8" ∧
    (WriteError (recorderSink detect) Marshal NewRecorder code
      (goStr text)).sink.snapHeader.map (fun h => Header.Get h "Content-Type") =
        some "application/json; charset=UTF-8" ∧
    Unmarshal (WriteError (recorderSink detect) Marshal NewRecorder code (goStr text)).sink.Body =
      some [(goStr "code", JSONValue.number code),
        (goStr "message", JSONValue.string m),
        (goStr "reason", JSONValue.string (goStr text))] := by
  rw [WriteError_recorder_success detect Marshal code (goStr text) m hcode rfl]
  refine ⟨rfl, rfl, by simp [Outcome.sink, Header.Get, Header.Set],
    by simp [Outcome.sink, Header.Get, Header.Set], ?_⟩
  obtain ⟨t, hm, _⟩ := errorCodeMap_phrase_text hcode
  subst hm
  exact Unmarshal_Marshal code t.toList text.toList (mapIndex_some_mem hcode)

/-- C1 as amended, at the input of `TestWriteErrorMissingParam`: code 400 and the reason
"Parameters were missing". -/
theorem WriteError_json_response_witness :
    (WriteError (recorderSink (fun _ => "")) Marshal NewRecorder 400
      (goStr "Parameters were missing")).isPanicked = false ∧
    (WriteError (recorderSink (fun _ => "")) Marshal NewRecorder 400
      (goStr "Parameters were missing")).sink.Code = 400 ∧
    Header.Get (WriteError (recorderSink (fun _ => "")) Marshal NewRecorder 400
      (goStr "Parameters were missing")).sink.HeaderMap "Content-Type" =
        "application/json; charset=UTF-8" ∧
    (WriteError (recorderSink (fun _ => "")) Marshal NewRecorder 400
      (goStr "Parameters were missing")).sink.snapHeader.map
        (fun h => Header.Get h "Content-Type") = some "application/json; charset=UTF-8" ∧
    Unmarshal (WriteError (recorderSink (fun _ => "")) Marshal NewRecorder 400
      (goStr "Parameters were missing")).sink.Body =
      some [(goStr "code", JSONValue.number 400),
        (goStr "message", JSONValue.string (goStr "Bad Request")),
        (goStr "reason", JSONValue.string (goStr "Parameters were missing"))] :=
  WriteError_json_response (fun _ => "") 400 (goStr "Bad Request") "Parameters were missing"
    (by decide)

/-- C1, as stated, fails for a reason that is not well-formed UTF-8: with code 400 and the
one-byte reason 0xFF the body is the object whose reason member is U+FFFD (bytes EF BF BD),
which is not the reason passed in. -/
theorem WriteError_json_response_counterexample :
    (WriteError (recorderSink (fun _ => "")) Marshal NewRecorder 400 [0xFF]).sink.Body =
      goStr "\x7b\"code\":400,\"message\":\"Bad Request\",\"reason\":\"\\ufffd\"\x7d" ∧
    Unmarshal (WriteError (recorderSink (fun _ => "")) Marshal NewRecorder 400 [0xFF]).sink.Body =
      some [(goStr "code", JSONValue.number 400),
        (goStr "message", JSONValue.string (goStr "Bad Request")),
        (goStr "reason", JSONValue.string [0xEF, 0xBF, 0xBD])] ∧
    Unmarshal (WriteError (recorderSink (fun _ => "")) Marshal NewRecorder 400 [0xFF]).sink.Body ≠
      some [(goStr "code", JSONValue.number 400),
        (goStr "message", JSONValue.string (goStr "Bad Request")),
        (goStr "reason", JSONValue.string [0xFF])] := by
  decide

/-- C8: with `json.Marshal`, for every code of the table and every reason that is a text
without a character JSON encoding escapes, the body written is exactly the compact object
with the keys code, message, reason in this order, the code in decimal, the table's phrase
and the reason as they are, and the status is the code; for code 401 and the reason
"missing token" the body is the object of the specification's scenario. -/
theorem WriteError_body_compact (detect : Bytes → String) (code : Int) (m : Bytes)
    (text : String) (hcode : mapIndex errorCodeMap code = some m)
    (hplain : ∀ c ∈ text.toList, jsonEscapes c = false) :
    (WriteError (recorderSink detect) Marshal NewRecorder code (goStr text)).sink.Body =
      goStr "\x7b\"code\":" ++ appendInt code ++ goStr ",\"message\":\"" ++ m ++
        goStr "\",\"reason\":\"" ++ goStr text ++ goStr "\"\x7d" ∧
    (WriteError (recorderSink detect) Marshal NewRecorder code (goStr text)).sink.Code = code ∧
    (WriteError (recorderSink detect) Marshal NewRecorder 401 (goStr "missing token")).sink.Body =
      goStr "\x7b\"code\":401,\"message\":\"Unauthorized\",\"reason\":\"missing token\"\x7d" ∧
    (WriteError (recorderSink detect) Marshal NewRecorder 401
      (goStr "missing token")).sink.Code = 401 := by
  rw [WriteError_recorder_success detect Marshal code (goStr text) m hcode rfl,
    WriteError_recorder_success detect Marshal 401 (goStr "missing token") (goStr "Unauthorized")
      (by decide) rfl]
  refine ⟨?_, rfl, by decide, rfl⟩
  obtain ⟨t, hm, hmplain⟩ := errorCodeMap_phrase_text hcode
  subst hm
  have e1 : goStr "\x7b\"code\":" = [123] ++ goStr "\"code\":" := by decide
  have e2 : goStr ",\"message\":\"" = goStr ",\"message\":" ++ [34] := by decide
  have e3 : goStr "\",\"reason\":\"" = [34] ++ goStr ",\"reason\":" ++ [34] := by decide
  have e4 : goStr "\"\x7d" = [34, 125] := by decide
  simp only [Outcome.sink, Marshal]
  rw [e1, e2, e3, e4]
  unfold goStr
  rw [appendString_plain t.toList hmplain, appendString_plain text.toList hplain]
  simp

/-- C8 at code 401 and the reason "missing token". -/
theorem WriteError_body_compact_witness :
    (WriteError (recorderSink (fun _ => "")) Marshal NewRecorder 401
      (goStr "missing token")).sink.Body =
      goStr "\x7b\"code\":" ++ appendInt 401 ++ goStr ",\"message\":\"" ++ goStr "Unauthorized" ++
        goStr "\",\"reason\":\"" ++ goStr "missing token" ++ goStr "\"\x7d" ∧
    (WriteError (recorderSink (fun _ => "")) Marshal NewRecorder 401
      (goStr "missing token")).sink.Code = 401 ∧
    (WriteError (recorderSink (fun _ => "")) Marshal NewRecorder 401
      (goStr "missing token")).sink.Body =
      goStr "\x7b\"code\":401,\"message\":\"Unauthorized\",\"reason\":\"missing token\"\x7d" ∧
    (WriteError (recorderSink (fun _ => "")) Marshal NewRecorder 401
      (goStr "missing token")).sink.Code = 401 :=
  WriteError_body_compact (fun _ => "") 401 (goStr "Unauthorized") "missing token"
    (by decide) (by decide)

/-! ## WriteError: the fallback of a failed serialization -/

/-- C6, as amended: when the serializer fails, whatever bytes it returns, `WriteError` on
a recognized code first sends the plain-text response of `http.Error`: the first status
line carries the code, the first body write is the reason followed by a newline, and on a
fresh recorder the headers sent with the status line have
`Content-Type: text/plain; charset=utf-8` and the body starts with the reason and the
newline. -/
theorem WriteError_fallback_plain_text (detect : Bytes → String)
    (marshalJSON : ErrorJSON → Bytes × error)
    (code : Int) (reason m : Bytes) (hcode : mapIndex errorCodeMap code = some m)
    (herr : (marshalJSON { Code := code, Message := m, Reason := reason }).2 ≠ none) :
    ((WriteError logSink marshalJSON [] code reason).sink.filter SinkOp.isWriteHeader).head? =
      some (SinkOp.writeHeader code) ∧
    ((WriteError logSink marshalJSON [] code reason).sink.filter SinkOp.isWrite).head? =
      some (SinkOp.write (reason ++ [10])) ∧
    (WriteError (recorderSink detect) marshalJSON NewRecorder code reason).sink.Code = code ∧
    (WriteError (recorderSink detect) marshalJSON NewRecorder code
      reason).sink.snapHeader.map (fun h => Header.Get h "Content-Type") =
        some "text/plain; charset=utf-8" ∧
    (WriteError (recorderSink detect) marshalJSON NewRecorder code reason).sink.Body.take
      (reason.length + 1) = reason ++ [10] := by
  rw [WriteError_recorder_failure detect marshalJSON code reason m hcode herr,
    WriteError_log_failure marshalJSON [] code reason m hcode herr]
  refine ⟨rfl, rfl, rfl, by simp [Outcome.sink, Header.Get, Header.Set], ?_⟩
  simp only [Outcome.sink]
  rw [List.take_append_of_le_length (by simp)]
  exact List.take_of_length_le (by simp)

/-- C6 as amended, at code 404, reason "Entity Not Found" and a serializer that returns
the bytes "oops" with its error. -/
theorem WriteError_fallback_plain_text_witness :
    ((WriteError logSink (fun _ => (goStr "oops", some (goStr "TEST_ERROR"))) [] 404
      (goStr "Entity Not Found")).sink.filter SinkOp.isWriteHeader).head? =
      some (SinkOp.writeHeader 404) ∧
    ((WriteError logSink (fun _ => (goStr "oops", some (goStr "TEST_ERROR"))) [] 404
      (goStr "Entity Not Found")).sink.filter SinkOp.isWrite).head? =
      some (SinkOp.write (goStr "Entity Not Found" ++ [10])) ∧
    (WriteError (recorderSink (fun _ => "")) (fun _ => (goStr "oops", some (goStr "TEST_ERROR")))
      NewRecorder 404 (goStr "Entity Not Found")).sink.Code = 404 ∧
    (WriteError (recorderSink (fun _ => "")) (fun _ => (goStr "oops", some (goStr "TEST_ERROR")))
      NewRecorder 404 (goStr "Entity Not Found")).sink.snapHeader.map
        (fun h => Header.Get h "Content-Type") = some "text/plain; charset=utf-8" ∧
    (WriteError (recorderSink (fun _ => "")) (fun _ => (goStr "oops", some (goStr "TEST_ERROR")))
      NewRecorder 404 (goStr "Entity Not Found")).sink.Body.take
      ((goStr "Entity Not Found").length + 1) = goStr "Entity Not Found" ++ [10] :=
  WriteError_fallback_plain_text (fun _ => "")
    (fun _ => (goStr "oops", some (goStr "TEST_ERROR"))) 404 (goStr "Entity Not Found")
    (goStr "Not Found") (by decide) (by decide)

/-- C6, as stated, fails at the input of `TestUnableToMarshalJSON` (code 404, reason
"Entity Not Found", a serializer returning no bytes and an error): the body the recorder
holds is the reason followed by a newline, not the reason alone. -/
theorem WriteError_fallback_counterexample :
    (WriteError (recorderSink (fun _ => "")) (fun _ => ([], some (goStr "TEST_ERROR")))
      NewRecorder 404 (goStr "Entity Not Found")).sink.Body = goStr "Entity Not Found\n" ∧
    (WriteError (recorderSink (fun _ => "")) (fun _ => ([], some (goStr "TEST_ERROR")))
      NewRecorder 404 (goStr "Entity Not Found")).sink.Body ≠ goStr "Entity Not Found" := by
  decide

end httperrors
